import Mathlib

/-!
Verification of the reconciliation subsystem of `pip-wrapper`
(`src/pip_wrapper/cli.py`).

The development shallowly embeds the functions of `cli.py` that the
reconciliation loop is built from:

* `is_virtual_env`              (cli.py lines 23-27)
* `initialize_pyproject`        (cli.py lines 60-80)
* `update_pyproject`            (cli.py lines 83-104)
* `get_installed_packages`      (cli.py lines 107-119)
* `reconcile_installed_packages`(cli.py lines 122-149)
* `InstallEventHandler.on_any_event` (cli.py lines 174-178)
* `monitor_virtualenv` / `periodic_reconcile` (cli.py lines 181-207)

Modelling conventions:

* A parsed `pyproject.toml` document is a `Document`: the
  `tool.custom.dependencies` table, the `build-system` table, and the
  remaining content (preserved verbatim by the load/dump round trip).
* Python dicts are insertion-ordered association lists; dict assignment
  updates an existing key in place and appends a fresh key, exactly as
  CPython does, so document equality in the model corresponds to
  byte-for-byte equality of the serialized file (toml.dump is a
  deterministic function of the document, including key order).
* The persisted file is `Option ManifestFile`: `none` when no file
  exists, `some (Except.ok d)` when the file parses to document `d`,
  and `some (Except.error ())` when `toml.load` would raise.
* External effects are inputs: the outcome of
  `subprocess.run([... "pip", "freeze"])` is an
  `Except Unit (List String)` (the stdout lines, or the failure of the
  invocation itself), and filesystem events are values fed to the
  handler.
-/

namespace PipWrapper

/-- The `tool.custom.dependencies` table: a Python dict from package name
to version string, modelled as an insertion-ordered association list. -/
abbrev Deps := List (String × String)

/-- Python dict membership/lookup `d[k]` (first binding; dicts built by the
program never hold duplicate keys). -/
def lookupD : Deps → String → Option String
  | [], _ => none
  | kv :: rest, n => if kv.1 = n then some kv.2 else lookupD rest n

/-- Python dict assignment `d[k] = v`: an existing binding is updated in
place (keeping its position); a fresh key is appended at the end. -/
def assignD (ds : Deps) (k v : String) : Deps :=
  if (lookupD ds k).isSome then
    ds.map (fun kv => if kv.1 = k then (k, v) else kv)
  else
    ds ++ [(k, v)]

/-- The `build-system` table of a `pyproject.toml` document. -/
structure BuildSystem where
  requires : List String
  buildBackend : String
  deriving DecidableEq, Repr

/-- A parsed `pyproject.toml` document: the dependency table
`tool.custom.dependencies`, the `build-system` table, and all remaining
key/value content of the document, which `toml.load`/`toml.dump`
round-trips unchanged. -/
structure Document where
  deps : Deps
  buildSystem : BuildSystem
  rest : List (String × String)
  deriving DecidableEq, Repr

/-- A persisted `pyproject.toml` file: either it parses to a document, or
`toml.load` raises on it. -/
abbrev ManifestFile := Except Unit Document

instance {α : Type} [DecidableEq α] : DecidableEq (Except Unit α) := fun f g =>
  match f, g with
  | Except.error a, Except.error b => isTrue (by cases a; cases b; rfl)
  | Except.ok d, Except.ok e =>
      if h : d = e then isTrue (by rw [h]) else
        isFalse (fun hc => h (by cases hc; rfl))
  | Except.error _, Except.ok _ => isFalse (fun hc => by cases hc)
  | Except.ok _, Except.error _ => isFalse (fun hc => by cases hc)

/-- The default document written by `initialize_pyproject`
(cli.py lines 65-75): empty dependency table and the fixed
`build-system` block. -/
def defaultProject : Document :=
  { deps := []
  , buildSystem :=
      { requires := ["setuptools", "wheel"]
      , buildBackend := "setuptools.build_meta" }
  , rest := [] }

/-- `initialize_pyproject` (cli.py lines 60-80): if no `pyproject.toml`
exists it writes the default document; otherwise it leaves the file
alone.  The result is the file content after the call (always present). -/
def initialize_pyproject : Option ManifestFile → ManifestFile
  | none => Except.ok defaultProject
  | some f => f

/-- The dependency-table mutation performed by `update_pyproject`
(cli.py lines 90-101): if the package is listed with the same version,
nothing changes; otherwise the package is assigned the new version. -/
def update_deps (deps : Deps) (package version : String) : Deps :=
  match lookupD deps package with
  | some v0 => if v0 = version then deps else assignD deps package version
  | none => assignD deps package version

/-- Result of one load-mutate-save call: the persisted file afterwards and
whether the call completed without raising. -/
structure RunResult where
  fs : Option ManifestFile
  ok : Bool
  deriving DecidableEq, Repr

/-- `update_pyproject` (cli.py lines 83-104): ensure the file exists, load
it (raising if it is malformed), assign the package's version in
`tool.custom.dependencies`, and write the document back. -/
def update_pyproject (fs0 : Option ManifestFile) (package version : String) :
    RunResult :=
  let f := initialize_pyproject fs0
  match f with
  | Except.error e => ⟨some (Except.error e), false⟩
  | Except.ok d =>
      ⟨some (Except.ok { d with deps := update_deps d.deps package version }), true⟩

/-- Python `line.split("==")` on the underlying character list: split at
every non-overlapping occurrence of `==`, scanning left to right. -/
def splitEqEq : List Char → List (List Char)
  | [] => [[]]
  | '=' :: '=' :: rest => [] :: splitEqEq rest
  | c :: rest =>
    match splitEqEq rest with
    | part :: parts => (c :: part) :: parts
    | [] => [[c]]

/-- Python `line.split("==")` on strings. -/
def split_on_eqeq (line : String) : List String :=
  (splitEqEq line.data).map String.mk

/-- One iteration of the parsing loop of `get_installed_packages`
(cli.py lines 115-118): a line without `==` is skipped; a line with one
`==` is unpacked into `name, version` and stored; a line whose split has
more than two parts makes the tuple unpacking raise `ValueError`. -/
def parse_freeze_line (pkgs : Deps) (line : String) : Except Unit Deps :=
  match split_on_eqeq line with
  | [_] => Except.ok pkgs
  | [name, version] => Except.ok (assignD pkgs name version)
  | _ => Except.error ()

/-- The `for line in result.stdout.splitlines()` loop of
`get_installed_packages` (cli.py lines 115-118): processes the lines in
order; a raise aborts the whole loop. -/
def freeze_loop : Deps → List String → Except Unit Deps
  | pkgs, [] => Except.ok pkgs
  | pkgs, line :: rest =>
    match parse_freeze_line pkgs line with
    | Except.ok pkgs1 => freeze_loop pkgs1 rest
    | Except.error e => Except.error e

/-- `get_installed_packages` (cli.py lines 107-119) applied to the stdout
lines of `pip freeze`: runs the parsing loop over the lines, starting
from the empty dict. -/
def get_installed_packages (stdout_lines : List String) : Except Unit Deps :=
  freeze_loop [] stdout_lines

/-- The add/update loop of `reconcile_installed_packages`
(cli.py lines 136-139): every probed package absent from the dependency
table, or recorded with a different version, is assigned its probed
version. -/
def add_update_deps (deps : Deps) (current : Deps) : Deps :=
  current.foldl
    (fun ds pv => if lookupD ds pv.1 = some pv.2 then ds else assignD ds pv.1 pv.2)
    deps

/-- The removal loop of `reconcile_installed_packages`
(cli.py lines 142-145): every dependency whose package is not in the
probed set is popped. -/
def remove_uninstalled (deps : Deps) (current : Deps) : Deps :=
  deps.filter (fun kv => (lookupD current kv.1).isSome)

/-- The full dependency-table mutation of one reconciliation. -/
def reconcile_deps (deps : Deps) (current : Deps) : Deps :=
  remove_uninstalled (add_update_deps deps current) current

/-- The probe as `reconcile_installed_packages` performs it: the
`subprocess.run` invocation of `pip freeze` (which may itself fail) and
then the parsing done by `get_installed_packages`. -/
def probe_installed (sub : Except Unit (List String)) : Except Unit Deps :=
  match sub with
  | Except.error e => Except.error e
  | Except.ok lines => get_installed_packages lines

/-- `reconcile_installed_packages` (cli.py lines 122-149): ensure the file
exists, probe the installed set (`pip freeze` invocation plus parsing —
either may raise), load the manifest (raising if malformed), rewrite the
dependency table, and save.  Any raise before the save leaves the file as
it stood after `initialize_pyproject`. -/
def reconcile_installed_packages (fs0 : Option ManifestFile)
    (sub : Except Unit (List String)) : RunResult :=
  let f := initialize_pyproject fs0
  match probe_installed sub with
  | Except.error _ => ⟨some f, false⟩
  | Except.ok current =>
    match f with
    | Except.error e => ⟨some (Except.error e), false⟩
    | Except.ok d =>
        ⟨some (Except.ok { d with deps := reconcile_deps d.deps current }), true⟩

/-! ### The monitor process, its triggers, and its precondition check -/

/-- The attributes of Python's `sys` module that `is_virtual_env` inspects:
whether the legacy `real_prefix` attribute exists, the value of
`base_prefix` when that attribute exists, and the value of `prefix`. -/
structure SysEnv where
  realPrefixAttr : Bool
  basePrefixAttr : Option String
  prefixPath : String
  deriving DecidableEq, Repr

/-- `is_virtual_env` (cli.py lines 23-27):
`hasattr(sys, 'real_prefix') or (hasattr(sys, 'base_prefix') and
sys.base_prefix != sys.prefix)`. -/
def is_virtual_env (s : SysEnv) : Bool :=
  s.realPrefixAttr ||
    (match s.basePrefixAttr with
     | some bp => decide (bp ≠ s.prefixPath)
     | none => false)

/-- What `monitor_virtualenv` (cli.py lines 181-193) does at startup:
either it calls `sys.exit(1)` before creating the observer or the
periodic thread, or it starts watching. -/
inductive MonitorStart where
  | exitNonZero (code : Nat)
  | watching
  deriving DecidableEq, Repr

/-- The startup decision of `monitor_virtualenv` (cli.py lines 183-185):
if `is_virtual_env()` is false the process exits with status 1 and no
observer, thread, or reconciliation is ever started; otherwise the
watcher and the periodic thread are started. -/
def monitor_virtualenv_start (s : SysEnv) : MonitorStart :=
  if is_virtual_env s then MonitorStart.watching else MonitorStart.exitNonZero 1

/-- The filesystem event kinds watchdog delivers to the handler. -/
inductive FsEvent where
  | created
  | deleted
  | modified
  | moved
  deriving DecidableEq, Repr

/-- A call the event handler makes into the rest of the program. -/
inductive TriggeredCall where
  | reconcile
  deriving DecidableEq, Repr

/-- `InstallEventHandler.on_any_event` (cli.py lines 174-178): every single
event, of any kind, unconditionally invokes
`reconcile_installed_packages()` exactly once — there is no timer, no
coalescing and no state in the handler. -/
def on_any_event (_ : FsEvent) : List TriggeredCall :=
  [TriggeredCall.reconcile]

/-- The observer dispatches each event of a burst to the handler, in
order; the reconciliations a burst triggers are the concatenation of
what the handler does for each event. -/
def dispatch_events (events : List FsEvent) : List TriggeredCall :=
  (events.map on_any_event).flatten

/-- `periodic_reconcile` (cli.py lines 195-198) run against a script of
tick outcomes (`true` = that tick's `reconcile_installed_packages()`
returned, `false` = it raised), giving the number of ticks that actually
invoked reconciliation.  The `while True` body is
`time.sleep(10); reconcile_installed_packages()` with no exception
handler, so a raise propagates out of the loop and terminates the
thread: the failing tick is the last one that runs. -/
def periodic_reconcile_runs : List Bool → Nat
  | [] => 0
  | outcome :: rest =>
      if outcome then 1 + periodic_reconcile_runs rest else 1

/-- Where a reconciliation thread is inside
`reconcile_installed_packages`: `idle` (not between load and save), or
`inFlight d` (it has loaded the manifest as document `d` and probed, but
not yet saved). -/
inductive ThreadPhase where
  | idle
  | inFlight (loaded : Document)
  deriving DecidableEq, Repr

/-- A state of the monitor process started by `monitor_virtualenv`
(cli.py lines 181-207): the shared `pyproject.toml` and the phase of the
two reconciliation threads — the watchdog event-handler thread and the
`periodic_reconcile` thread. -/
structure MonitorState where
  fileSt : Option ManifestFile
  watcher : ThreadPhase
  timer : ThreadPhase
  deriving Repr

/-- Interleaving semantics of the two reconciliation threads started by
`monitor_virtualenv`.  `reconcile_installed_packages` performs
load-mutate-save on the shared file, and cli.py contains no lock, mutex
or queue, so a thread may begin its sequence (load + probe) and finish
it (save) regardless of the other thread's phase: no constructor below
is guarded on the other thread.  `Sw` and `St` are the installed sets
probed by the watcher-triggered and the timer-triggered reconciliation;
a save writes the document computed from the saver's own loaded
snapshot, overwriting whatever is in the file at that moment. -/
inductive MonitorStep (Sw St : Deps) : MonitorState → MonitorState → Prop where
  | watcherLoad (d : Document) (t : ThreadPhase) :
      MonitorStep Sw St
        ⟨some (Except.ok d), ThreadPhase.idle, t⟩
        ⟨some (Except.ok d), ThreadPhase.inFlight d, t⟩
  | watcherSave (d : Document) (f : Option ManifestFile) (t : ThreadPhase) :
      MonitorStep Sw St
        ⟨f, ThreadPhase.inFlight d, t⟩
        ⟨some (Except.ok { d with deps := reconcile_deps d.deps Sw }),
          ThreadPhase.idle, t⟩
  | timerLoad (d : Document) (w : ThreadPhase) :
      MonitorStep Sw St
        ⟨some (Except.ok d), w, ThreadPhase.idle⟩
        ⟨some (Except.ok d), w, ThreadPhase.inFlight d⟩
  | timerSave (d : Document) (f : Option ManifestFile) (w : ThreadPhase) :
      MonitorStep Sw St
        ⟨f, w, ThreadPhase.inFlight d⟩
        ⟨some (Except.ok { d with deps := reconcile_deps d.deps St }),
          w, ThreadPhase.idle⟩

/-- The monitor's state just after startup: the manifest on disk, both
reconciliation threads idle. -/
def monInit (d0 : Document) : MonitorState :=
  ⟨some (Except.ok d0), ThreadPhase.idle, ThreadPhase.idle⟩

/-! ### Dictionary lemmas -/

/-- A dict's keys are pairwise distinct.  Every dict the program builds
(`toml.load` output, `pip freeze` parsing, and all mutations) has this
property, since Python dicts cannot hold a key twice. -/
def keysNodup (ds : Deps) : Prop := (ds.map Prod.fst).Nodup

theorem lookupD_eq_none_iff (ds : Deps) (n : String) :
    lookupD ds n = none ↔ n ∉ ds.map Prod.fst := by
  induction ds with
  | nil => simp [lookupD]
  | cons kv rest ih =>
    obtain ⟨k, v⟩ := kv
    by_cases hk : k = n
    · subst hk
      simp [lookupD]
    · simp [lookupD, hk, ih, Ne.symm hk]

theorem lookupD_append (ds es : Deps) (n : String) :
    lookupD (ds ++ es) n =
      match lookupD ds n with
      | some v => some v
      | none => lookupD es n := by
  induction ds with
  | nil => simp [lookupD]
  | cons kv rest ih =>
    obtain ⟨k, v⟩ := kv
    by_cases hk : k = n
    · simp [lookupD, hk]
    · simp [lookupD, hk, ih]

theorem lookupD_map_update_self (ds : Deps) (k v : String)
    (h : (lookupD ds k).isSome) :
    lookupD (ds.map (fun kv => if kv.1 = k then (k, v) else kv)) k = some v := by
  induction ds with
  | nil => simp [lookupD] at h
  | cons kv rest ih =>
    obtain ⟨k0, v0⟩ := kv
    simp only [List.map_cons]
    by_cases hk : k0 = k
    · subst hk
      simp [lookupD]
    · have h' : (lookupD rest k).isSome := by
        simpa [lookupD, hk] using h
      simp [lookupD, hk, ih h']

theorem lookupD_map_update_ne (ds : Deps) (k v n : String) (h : n ≠ k) :
    lookupD (ds.map (fun kv => if kv.1 = k then (k, v) else kv)) n = lookupD ds n := by
  induction ds with
  | nil => simp [lookupD]
  | cons kv rest ih =>
    obtain ⟨k0, v0⟩ := kv
    simp only [List.map_cons]
    by_cases hk : k0 = k
    · subst hk
      simp [lookupD, Ne.symm h, ih]
    · by_cases hn : k0 = n
      · subst hn
        simp [lookupD, hk]
      · simp [lookupD, hk, hn, ih]

theorem lookupD_assignD_self (ds : Deps) (k v : String) :
    lookupD (assignD ds k v) k = some v := by
  rcases hl : lookupD ds k with _ | w
  · simp only [assignD, hl, Option.isSome_none, Bool.false_eq_true, if_false]
    rw [lookupD_append, hl]
    simp [lookupD]
  · simp only [assignD, hl, Option.isSome_some, if_true]
    exact lookupD_map_update_self ds k v (by simp [hl])

theorem lookupD_assignD_ne (ds : Deps) (k v n : String) (h : n ≠ k) :
    lookupD (assignD ds k v) n = lookupD ds n := by
  rcases hl : lookupD ds k with _ | w
  · simp only [assignD, hl, Option.isSome_none, Bool.false_eq_true, if_false]
    rw [lookupD_append]
    rcases hn : lookupD ds n with _ | w'
    · simp [lookupD, Ne.symm h]
    · rfl
  · simp only [assignD, hl, Option.isSome_some, if_true]
    exact lookupD_map_update_ne ds k v n h

theorem keys_map_update (ds : Deps) (k v : String) :
    (ds.map (fun kv => if kv.1 = k then (k, v) else kv)).map Prod.fst =
      ds.map Prod.fst := by
  rw [List.map_map]
  apply List.map_congr_left
  intro kv _
  by_cases hk : kv.1 = k
  · simp [hk]
  · simp [hk]

theorem keys_assignD (ds : Deps) (k v : String) :
    (assignD ds k v).map Prod.fst =
      if (lookupD ds k).isSome then ds.map Prod.fst else ds.map Prod.fst ++ [k] := by
  rcases hl : lookupD ds k with _ | w
  · simp only [assignD, hl, Option.isSome_none, Bool.false_eq_true, if_false]
    simp
  · simp only [assignD, hl, Option.isSome_some, if_true]
    exact keys_map_update ds k v

theorem keysNodup_assignD (ds : Deps) (k v : String) (h : keysNodup ds) :
    keysNodup (assignD ds k v) := by
  unfold keysNodup at h ⊢
  rw [keys_assignD]
  rcases hl : lookupD ds k with _ | w
  · have hk : k ∉ ds.map Prod.fst := (lookupD_eq_none_iff ds k).mp hl
    simp [hl, List.nodup_append, h, hk]
  · simp [hl, h]

theorem lookupD_eq_of_mem (S : Deps) (k v : String) (hc : keysNodup S)
    (hm : (k, v) ∈ S) : lookupD S k = some v := by
  induction S with
  | nil => cases hm
  | cons kv rest ih =>
    obtain ⟨k0, v0⟩ := kv
    rcases List.mem_cons.mp hm with heq | htl
    · obtain ⟨rfl, rfl⟩ := Prod.mk.injEq .. ▸ heq
      · simp [lookupD]
    · have hk0 : k0 ≠ k := by
        intro hk
        subst hk
        have : k0 ∈ rest.map Prod.fst := by
          exact List.mem_map.mpr ⟨(k0, v), htl, rfl⟩
        exact (List.nodup_cons.mp hc).1 this
      have hrest : keysNodup rest := (List.nodup_cons.mp hc).2
      simp [lookupD, hk0, ih hrest htl]

/-! ### Reconciliation lemmas -/

theorem lookupD_add_update_not_mem (current : Deps) (deps : Deps) (n : String)
    (hn : lookupD current n = none) :
    lookupD (add_update_deps deps current) n = lookupD deps n := by
  induction current generalizing deps with
  | nil => rfl
  | cons kv rest ih =>
    obtain ⟨k, w⟩ := kv
    have hk : k ≠ n := by
      intro hkn
      simp [lookupD, hkn] at hn
    have hrest : lookupD rest n = none := by
      simpa [lookupD, hk] using hn
    show lookupD (add_update_deps
      (if lookupD deps k = some w then deps else assignD deps k w) rest) n = lookupD deps n
    rw [ih _ hrest]
    by_cases hd : lookupD deps k = some w
    · rw [if_pos hd]
    · rw [if_neg hd]
      exact lookupD_assignD_ne deps k w n (Ne.symm hk)

theorem lookupD_add_update_mem (current : Deps) (deps : Deps) (n v : String)
    (hc : keysNodup current) (hn : lookupD current n = some v) :
    lookupD (add_update_deps deps current) n = some v := by
  induction current generalizing deps with
  | nil => simp [lookupD] at hn
  | cons kv rest ih =>
    obtain ⟨k, w⟩ := kv
    have hcrest : keysNodup rest := (List.nodup_cons.mp hc).2
    show lookupD (add_update_deps
      (if lookupD deps k = some w then deps else assignD deps k w) rest) n = some v
    by_cases hk : k = n
    · subst hk
      have hv : w = v := by
        simpa [lookupD] using hn
      subst hv
      have hknotin : k ∉ rest.map Prod.fst := (List.nodup_cons.mp hc).1
      have hrest : lookupD rest k = none := (lookupD_eq_none_iff rest k).mpr hknotin
      rw [lookupD_add_update_not_mem rest _ k hrest]
      by_cases hd : lookupD deps k = some w
      · rw [if_pos hd, hd]
      · rw [if_neg hd]
        exact lookupD_assignD_self deps k w
    · have hrest : lookupD rest n = some v := by
        simpa [lookupD, hk] using hn
      exact ih _ hcrest hrest

theorem lookupD_remove_uninstalled_mem (deps current : Deps) (n : String)
    (h : (lookupD current n).isSome) :
    lookupD (remove_uninstalled deps current) n = lookupD deps n := by
  induction deps with
  | nil => rfl
  | cons kv rest ih =>
    obtain ⟨k, w⟩ := kv
    by_cases hk : k = n
    · subst hk
      simp only [remove_uninstalled, List.filter_cons]
      rw [if_pos (by simpa using h)]
      simp [lookupD]
    · simp only [remove_uninstalled, List.filter_cons] at ih ⊢
      by_cases hkeep : (lookupD current k).isSome
      · rw [if_pos (by simpa using hkeep)]
        simp [lookupD, hk, ih]
      · rw [if_neg (by simpa using hkeep)]
        simp [lookupD, hk] at ih ⊢
        exact ih

theorem lookupD_remove_uninstalled_not_mem (deps current : Deps) (n : String)
    (h : lookupD current n = none) :
    lookupD (remove_uninstalled deps current) n = none := by
  induction deps with
  | nil => rfl
  | cons kv rest ih =>
    obtain ⟨k, w⟩ := kv
    simp only [remove_uninstalled, List.filter_cons] at ih ⊢
    by_cases hkeep : (lookupD current k).isSome
    · have hk : k ≠ n := by
        intro hkn
        rw [hkn, h] at hkeep
        simp at hkeep
      rw [if_pos (by simpa using hkeep)]
      simp [lookupD, hk]
      exact ih
    · rw [if_neg (by simpa using hkeep)]
      exact ih

/-- Convergence of the dependency-table mutation: after one reconciliation
pass, looking up any package in the new table gives exactly its probed
version (and `none` for packages not probed). -/
theorem lookupD_reconcile_deps (deps current : Deps) (hc : keysNodup current)
    (n : String) :
    lookupD (reconcile_deps deps current) n = lookupD current n := by
  unfold reconcile_deps
  rcases hn : lookupD current n with _ | v
  · exact lookupD_remove_uninstalled_not_mem _ current n hn
  · rw [lookupD_remove_uninstalled_mem _ current n (by simp [hn])]
    exact lookupD_add_update_mem current deps n v hc hn

theorem add_update_deps_id (deps current : Deps)
    (h : ∀ kv ∈ current, lookupD deps kv.1 = some kv.2) :
    add_update_deps deps current = deps := by
  induction current with
  | nil => rfl
  | cons kv rest ih =>
    obtain ⟨k, w⟩ := kv
    show add_update_deps
      (if lookupD deps k = some w then deps else assignD deps k w) rest = deps
    rw [if_pos (h (k, w) (List.mem_cons_self _ _))]
    exact ih (fun kv hkv => h kv (List.mem_cons_of_mem _ hkv))

theorem remove_uninstalled_id (deps current : Deps)
    (h : ∀ kv ∈ deps, (lookupD current kv.1).isSome) :
    remove_uninstalled deps current = deps := by
  unfold remove_uninstalled
  apply List.filter_eq_self.mpr
  intro kv hkv
  simpa using h kv hkv

theorem mem_reconcile_deps_installed (deps current : Deps) (kv : String × String)
    (h : kv ∈ reconcile_deps deps current) : (lookupD current kv.1).isSome := by
  have := List.of_mem_filter h
  simpa using this

/-- Idempotence of the dependency-table mutation: reconciling a second time
against the same probed set changes nothing. -/
theorem reconcile_deps_idem (deps current : Deps) (hc : keysNodup current) :
    reconcile_deps (reconcile_deps deps current) current =
      reconcile_deps deps current := by
  have h1 : add_update_deps (reconcile_deps deps current) current =
      reconcile_deps deps current := by
    apply add_update_deps_id
    intro kv hkv
    rw [lookupD_reconcile_deps deps current hc]
    exact lookupD_eq_of_mem current kv.1 kv.2 hc hkv
  show remove_uninstalled (add_update_deps (reconcile_deps deps current) current)
      current = reconcile_deps deps current
  rw [h1]
  apply remove_uninstalled_id
  intro kv hkv
  exact mem_reconcile_deps_installed deps current kv hkv

/-! ### Parser lemmas -/

theorem keysNodup_parse_freeze_line (pkgs : Deps) (line : String) (out : Deps)
    (hp : keysNodup pkgs) (h : parse_freeze_line pkgs line = Except.ok out) :
    keysNodup out := by
  unfold parse_freeze_line at h
  rcases hs : split_on_eqeq line with _ | ⟨a, _ | ⟨b, _ | _⟩⟩ <;> rw [hs] at h
  · cases h
  · cases h
    exact hp
  · cases h
    exact keysNodup_assignD pkgs a b hp
  · cases h

theorem keysNodup_freeze_loop (lines : List String) (pkgs : Deps) (out : Deps)
    (hp : keysNodup pkgs) (h : freeze_loop pkgs lines = Except.ok out) :
    keysNodup out := by
  induction lines generalizing pkgs with
  | nil =>
    cases h
    exact hp
  | cons line rest ih =>
    unfold freeze_loop at h
    rcases hl : parse_freeze_line pkgs line with e | pkgs1 <;> rw [hl] at h
    · cases h
    · exact ih pkgs1 (keysNodup_parse_freeze_line pkgs line pkgs1 hp hl) h

/-- Every installed set returned by `get_installed_packages` is a genuine
dict: no package name occurs twice. -/
theorem keysNodup_get_installed_packages (lines : List String) (S : Deps)
    (h : get_installed_packages lines = Except.ok S) : keysNodup S :=
  keysNodup_freeze_loop lines [] S (by simp [keysNodup]) h

/-! ### Shape of the result of one reconciliation / update call -/

theorem reconcile_eq_probeFail (fs0 : Option ManifestFile)
    (sub : Except Unit (List String)) (hp : probe_installed sub = Except.error ()) :
    reconcile_installed_packages fs0 sub = ⟨some (initialize_pyproject fs0), false⟩ := by
  simp only [reconcile_installed_packages, hp]

theorem reconcile_eq_loadFail (fs0 : Option ManifestFile)
    (sub : Except Unit (List String)) (S : Deps)
    (hp : probe_installed sub = Except.ok S)
    (hf : initialize_pyproject fs0 = Except.error ()) :
    reconcile_installed_packages fs0 sub = ⟨some (Except.error ()), false⟩ := by
  simp only [reconcile_installed_packages, hp, hf]

theorem reconcile_eq_ok (fs0 : Option ManifestFile)
    (sub : Except Unit (List String)) (S : Deps) (d : Document)
    (hp : probe_installed sub = Except.ok S)
    (hf : initialize_pyproject fs0 = Except.ok d) :
    reconcile_installed_packages fs0 sub =
      ⟨some (Except.ok { d with deps := reconcile_deps d.deps S }), true⟩ := by
  simp only [reconcile_installed_packages, hp, hf]

theorem lookupD_update_deps_self (deps : Deps) (p v : String) :
    lookupD (update_deps deps p v) p = some v := by
  rcases hl : lookupD deps p with _ | v0
  · simp only [update_deps, hl]
    exact lookupD_assignD_self deps p v
  · simp only [update_deps, hl]
    by_cases hv : v0 = v
    · subst hv
      rw [if_pos rfl]
      exact hl
    · rw [if_neg hv]
      exact lookupD_assignD_self deps p v

theorem lookupD_update_deps_ne (deps : Deps) (p v q : String) (h : q ≠ p) :
    lookupD (update_deps deps p v) q = lookupD deps q := by
  rcases hl : lookupD deps p with _ | v0
  · simp only [update_deps, hl]
    exact lookupD_assignD_ne deps p v q h
  · simp only [update_deps, hl]
    by_cases hv : v0 = v
    · rw [if_pos hv]
    · rw [if_neg hv]
      exact lookupD_assignD_ne deps p v q h

/-! ### Totality of the freeze parser on well-formed output -/

theorem splitEqEq_ne_nil (cs : List Char) : splitEqEq cs ≠ [] := by
  unfold splitEqEq
  split
  · simp
  · simp
  · split <;> simp

theorem split_on_eqeq_ne_nil (line : String) : split_on_eqeq line ≠ [] := by
  unfold split_on_eqeq
  intro h
  exact splitEqEq_ne_nil line.data (List.map_eq_nil_iff.mp h)

theorem freeze_loop_total (lines : List String) (pkgs : Deps)
    (h : ∀ l ∈ lines, (split_on_eqeq l).length ≤ 2) :
    ∃ S, freeze_loop pkgs lines = Except.ok S ∧
      ((∀ l ∈ lines, (split_on_eqeq l).length = 1) → S = pkgs) := by
  induction lines generalizing pkgs with
  | nil => exact ⟨pkgs, rfl, fun _ => rfl⟩
  | cons line rest ih =>
    have hline := h line (List.mem_cons_self _ _)
    have hrest : ∀ l ∈ rest, (split_on_eqeq l).length ≤ 2 :=
      fun l hl => h l (List.mem_cons_of_mem _ hl)
    rcases hs : split_on_eqeq line with _ | ⟨a, _ | ⟨b, _ | _⟩⟩
    · exact absurd hs (split_on_eqeq_ne_nil line)
    · obtain ⟨S, hS, hSid⟩ := ih pkgs hrest
      refine ⟨S, ?_, ?_⟩
      · simpa [freeze_loop, parse_freeze_line, hs] using hS
      · intro hall
        exact hSid (fun l hl => hall l (List.mem_cons_of_mem _ hl))
    · obtain ⟨S, hS, _⟩ := ih (assignD pkgs a b) hrest
      refine ⟨S, ?_, ?_⟩
      · simpa [freeze_loop, parse_freeze_line, hs] using hS
      · intro hall
        have := hall line (List.mem_cons_self _ _)
        rw [hs] at this
        simp at this
    · rw [hs] at hline
      simp at hline

/-! ### Shape of the periodic loop's run count -/

theorem periodic_reconcile_runs_eq (script : List Bool) :
    periodic_reconcile_runs script =
      min script.length ((script.takeWhile id).length + 1) := by
  induction script with
  | nil => rfl
  | cons b rest ih =>
    cases b
    · simp [periodic_reconcile_runs, List.takeWhile_cons]
    · simp only [periodic_reconcile_runs, List.takeWhile_cons, ih, id_eq, if_true,
        List.length_cons]
      omega

/-! ### The claims -/

/-- C1: for any installed set `S` returned by the prober, after a single
call to `reconcile_installed_packages()` completes successfully, the
dependency mapping persisted in the manifest (`tool.custom.dependencies`)
is set-equal to `S`: every (name, version) pair of `S` appears with that
exact version, and no name absent from `S` remains (looking up any name
in the persisted mapping agrees with looking it up in `S`). -/
theorem claim_C1_convergence (fs0 : Option ManifestFile) (lines : List String)
    (S : Deps) (hS : get_installed_packages lines = Except.ok S)
    (hok : (reconcile_installed_packages fs0 (Except.ok lines)).ok = true) :
    ∃ d', (reconcile_installed_packages fs0 (Except.ok lines)).fs =
        some (Except.ok d') ∧
      ∀ n, lookupD d'.deps n = lookupD S n := by
  have hp : probe_installed (Except.ok lines) = Except.ok S := hS
  have hnodup : keysNodup S := keysNodup_get_installed_packages lines S hS
  rcases hf : initialize_pyproject fs0 with e | d
  · cases e
    rw [reconcile_eq_loadFail fs0 _ S hp hf] at hok
    cases hok
  · rw [reconcile_eq_ok fs0 _ S d hp hf]
    exact ⟨_, rfl, fun n => lookupD_reconcile_deps d.deps S hnodup n⟩

/-- Witness for C1 at a concrete input: starting with no manifest and
`pip freeze` printing `requests==2.31.0`. -/
theorem claim_C1_convergence_witness :
    ∃ d', (reconcile_installed_packages none
        (Except.ok ["requests==2.31.0"])).fs = some (Except.ok d') ∧
      ∀ n, lookupD d'.deps n = lookupD [("requests", "2.31.0")] n :=
  claim_C1_convergence none ["requests==2.31.0"] [("requests", "2.31.0")]
    (by decide) (by decide)

/-- C2: `reconcile_installed_packages()` is idempotent: if it is invoked
twice and the probed installed set is the same `S` for both invocations,
the persisted manifest after the second invocation equals the manifest
after the first (document equality, including key order — `toml.dump` is
a deterministic serialization, so this is byte-for-byte identity of the
file). -/
theorem claim_C2_idempotence (fs0 : Option ManifestFile) (l1 l2 : List String)
    (S : Deps) (h1 : get_installed_packages l1 = Except.ok S)
    (h2 : get_installed_packages l2 = Except.ok S) :
    (reconcile_installed_packages
        (reconcile_installed_packages fs0 (Except.ok l1)).fs (Except.ok l2)).fs =
      (reconcile_installed_packages fs0 (Except.ok l1)).fs := by
  have hp1 : probe_installed (Except.ok l1) = Except.ok S := h1
  have hp2 : probe_installed (Except.ok l2) = Except.ok S := h2
  have hnodup : keysNodup S := keysNodup_get_installed_packages l1 S h1
  rcases hf : initialize_pyproject fs0 with e | d
  · cases e
    rw [reconcile_eq_loadFail fs0 _ S hp1 hf]
    rw [reconcile_eq_loadFail (some (Except.error ())) _ S hp2 rfl]
  · rw [reconcile_eq_ok fs0 _ S d hp1 hf]
    rw [reconcile_eq_ok (some (Except.ok { d with deps := reconcile_deps d.deps S }))
      _ S { d with deps := reconcile_deps d.deps S } hp2 rfl]
    simp only [reconcile_deps_idem d.deps S hnodup]

/-- Witness for C2 at a concrete input: no pre-existing manifest, both
probes seeing `requests==2.31.0`. -/
theorem claim_C2_idempotence_witness :
    (reconcile_installed_packages
        (reconcile_installed_packages none (Except.ok ["requests==2.31.0"])).fs
        (Except.ok ["requests==2.31.0"])).fs =
      (reconcile_installed_packages none (Except.ok ["requests==2.31.0"])).fs :=
  claim_C2_idempotence none ["requests==2.31.0"] ["requests==2.31.0"]
    [("requests", "2.31.0")] (by decide) (by decide)

/-- C5: for every manifest document present before a call to
`reconcile_installed_packages()`, the `build-system` section (and all
other content outside `tool.custom.dependencies`) is present and
unchanged after the call, whether the call succeeds or aborts:
reconciliation modifies only the dependency mapping. -/
theorem claim_C5_frame (d : Document) (sub : Except Unit (List String)) :
    ∃ d', (reconcile_installed_packages (some (Except.ok d)) sub).fs =
        some (Except.ok d') ∧
      d'.buildSystem = d.buildSystem ∧ d'.rest = d.rest := by
  rcases hp : probe_installed sub with e | S
  · cases e
    rw [reconcile_eq_probeFail _ sub hp]
    exact ⟨d, rfl, rfl, rfl⟩
  · rw [reconcile_eq_ok (some (Except.ok d)) sub S d hp rfl]
    exact ⟨_, rfl, rfl, rfl⟩

/-- C7: if probing the installed set fails (the `pip freeze` invocation
raises, or its output makes the parser raise) or loading the manifest
fails (`toml.load` raises), the whole reconciliation aborts and the
persisted manifest is exactly what it was before the call — no partial
write occurs. -/
theorem claim_C7_abort_before_save (f : ManifestFile)
    (sub : Except Unit (List String))
    (hfail : probe_installed sub = Except.error () ∨ f = Except.error ()) :
    reconcile_installed_packages (some f) sub = ⟨some f, false⟩ := by
  rcases hfail with hp | hf
  · rw [reconcile_eq_probeFail (some f) sub hp]
    rfl
  · subst hf
    rcases hp : probe_installed sub with e | S
    · cases e
      rw [reconcile_eq_probeFail (some (Except.error ())) sub hp]
      rfl
    · rw [reconcile_eq_loadFail (some (Except.error ())) sub S hp rfl]

/-- Witness for C7 at a concrete input: a manifest holding the default
document, and a `pip freeze` invocation that fails. -/
theorem claim_C7_abort_before_save_witness :
    reconcile_installed_packages (some (Except.ok defaultProject))
        (Except.error ()) =
      ⟨some (Except.ok defaultProject), false⟩ :=
  claim_C7_abort_before_save (Except.ok defaultProject) (Except.error ())
    (Or.inl rfl)

/-- C10: after `update_pyproject p v`, the persisted dependency mapping
sends `p` to `v` and every other name to what it was before; when no
manifest file existed, the file is first created with the empty mapping
and the default `build-system` block, so it ends up holding exactly
`p ↦ v`.  The `build-system` block and all other content are unchanged. -/
theorem claim_C10_update (fs0 : Option ManifestFile) (p v : String) :
    (fs0 = none →
      update_pyproject fs0 p v =
        ⟨some (Except.ok { defaultProject with deps := [(p, v)] }), true⟩) ∧
    (∀ d, fs0 = some (Except.ok d) →
      ∃ d', update_pyproject fs0 p v = ⟨some (Except.ok d'), true⟩ ∧
        lookupD d'.deps p = some v ∧
        (∀ q, q ≠ p → lookupD d'.deps q = lookupD d.deps q) ∧
        d'.buildSystem = d.buildSystem ∧ d'.rest = d.rest) := by
  constructor
  · rintro rfl
    rfl
  · rintro d rfl
    exact ⟨_, rfl, lookupD_update_deps_self d.deps p v,
      fun q hq => lookupD_update_deps_ne d.deps p v q hq, rfl, rfl⟩

/-- Witness for C10 at a concrete input: no pre-existing manifest,
recording `requests == 2.31.0`. -/
theorem claim_C10_update_witness :
    update_pyproject none "requests" "2.31.0" =
      ⟨some (Except.ok { defaultProject with deps := [("requests", "2.31.0")] }),
        true⟩ :=
  (claim_C10_update none "requests" "2.31.0").1 rfl

/-- C3 counterexample: the claim says at most one load-mutate-save
sequence is ever in flight.  In fact, starting from the default manifest,
with the watcher's reconciliation probing `requests==2.31.0` and the
timer's probing an empty set, a state is reachable in which BOTH threads
are between load and save; moreover, continuing that run (watcher saves,
then timer saves) brings the file back to the initial document — the
watcher's completed save of the `requests` entry is wiped out by the
timer's save, the classic lost update. -/
theorem claim_C3_counterexample :
    ∃ s : MonitorState,
      Relation.ReflTransGen (MonitorStep [("requests", "2.31.0")] [])
        (monInit defaultProject) s ∧
      (∃ d, s.watcher = ThreadPhase.inFlight d) ∧
      (∃ d, s.timer = ThreadPhase.inFlight d) ∧
      Relation.ReflTransGen (MonitorStep [("requests", "2.31.0")] [])
        s (monInit defaultProject) := by
  refine ⟨⟨some (Except.ok defaultProject), ThreadPhase.inFlight defaultProject,
    ThreadPhase.inFlight defaultProject⟩, ?_, ⟨defaultProject, rfl⟩,
    ⟨defaultProject, rfl⟩, ?_⟩
  · exact Relation.ReflTransGen.tail
      (Relation.ReflTransGen.tail Relation.ReflTransGen.refl
        (MonitorStep.watcherLoad defaultProject ThreadPhase.idle))
      (MonitorStep.timerLoad defaultProject (ThreadPhase.inFlight defaultProject))
  · exact Relation.ReflTransGen.tail
      (Relation.ReflTransGen.tail Relation.ReflTransGen.refl
        (MonitorStep.watcherSave defaultProject (some (Except.ok defaultProject))
          (ThreadPhase.inFlight defaultProject)))
      (MonitorStep.timerSave defaultProject _ ThreadPhase.idle)

/-- C3 amended: reconciliation is NOT serialized.  `monitor_virtualenv`
starts the watchdog handler thread and the `periodic_reconcile` thread
with no lock, mutex or queue anywhere in cli.py, so from any starting
manifest, whatever the two reconciliations probe, the system can reach a
state in which both threads are simultaneously inside the
load-mutate-save sequence. -/
theorem claim_C3_not_serialized (d0 : Document) (Sw St : Deps) :
    ∃ s : MonitorState,
      Relation.ReflTransGen (MonitorStep Sw St) (monInit d0) s ∧
      (∃ d, s.watcher = ThreadPhase.inFlight d) ∧
      (∃ d, s.timer = ThreadPhase.inFlight d) :=
  ⟨⟨some (Except.ok d0), ThreadPhase.inFlight d0, ThreadPhase.inFlight d0⟩,
    Relation.ReflTransGen.tail
      (Relation.ReflTransGen.tail Relation.ReflTransGen.refl
        (MonitorStep.watcherLoad d0 ThreadPhase.idle))
      (MonitorStep.timerLoad d0 (ThreadPhase.inFlight d0)),
    ⟨d0, rfl⟩, ⟨d0, rfl⟩⟩

/-- C4 counterexample: the claim says a burst of N ≥ 1 events within the
debounce window triggers exactly one reconciliation.  A burst of two
events makes the handler invoke `reconcile_installed_packages` twice,
not once. -/
theorem claim_C4_counterexample :
    dispatch_events [FsEvent.modified, FsEvent.modified] =
        [TriggeredCall.reconcile, TriggeredCall.reconcile] ∧
      (dispatch_events [FsEvent.modified, FsEvent.modified]).length ≠ 1 := by
  decide

/-- C4 amended: there is no debouncing.  `InstallEventHandler.on_any_event`
calls `reconcile_installed_packages()` unconditionally on every event, so
a burst of N filesystem events triggers exactly N reconciliations. -/
theorem claim_C4_one_per_event (events : List FsEvent) :
    (dispatch_events events).length = events.length := by
  induction events with
  | nil => rfl
  | cons e rest ih =>
    simpa [dispatch_events, on_any_event] using ih

/-- C6 counterexample: the claim says every line that does not match the
`name==version` pattern is ignored without raising.  A line with two
occurrences of `==`, such as `a==b==c`, does not match the pattern, yet
`get_installed_packages` raises `ValueError` on it (three-way split fed
to a two-name tuple unpacking) instead of ignoring it. -/
theorem claim_C6_counterexample :
    get_installed_packages ["a==b==c"] = Except.error () ∧
      get_installed_packages ["a==b==c"] ≠ Except.ok [] := by
  decide

/-- C6 amended: `get_installed_packages` ignores, without raising, every
line that does not CONTAIN `==`, and returns the empty mapping when no
line contains `==` (in particular an empty output never makes it fail);
but a line whose `==`-split has more than two parts raises instead of
being ignored.  Formally: if every line's split has at most two parts the
call succeeds, and if additionally no line contains `==` at all the
result is the empty mapping. -/
theorem claim_C6_skip_nonmatching (lines : List String)
    (h : ∀ l ∈ lines, (split_on_eqeq l).length ≤ 2) :
    ∃ S, get_installed_packages lines = Except.ok S ∧
      ((∀ l ∈ lines, (split_on_eqeq l).length = 1) → S = []) :=
  freeze_loop_total lines [] h

/-- Witness for the amended C6 at a concrete input: a warning line, an
empty line, and a direct-reference line, none containing `==`. -/
theorem claim_C6_skip_nonmatching_witness :
    ∃ S, get_installed_packages ["some warning", "", "foo @ file:///tmp/foo"] =
        Except.ok S ∧
      ((∀ l ∈ (["some warning", "", "foo @ file:///tmp/foo"] : List String),
          (split_on_eqeq l).length = 1) → S = []) :=
  claim_C6_skip_nonmatching ["some warning", "", "foo @ file:///tmp/foo"]
    (by decide)

/-- C8 counterexample: the claim says that after an error inside one
reconciliation the periodic trigger keeps firing and reconciles on the
next tick.  With the first tick's reconciliation raising and a second
tick due, the loop performs exactly one reconciliation — the second tick
never happens, because the uncaught exception has terminated the
`periodic_reconcile` thread. -/
theorem claim_C8_counterexample :
    periodic_reconcile_runs [false, true] = 1 ∧
      periodic_reconcile_runs [false, true] ≠ 2 := by
  decide

/-- C8 amended: the `while True` body of `periodic_reconcile` has no
exception handler, so the loop reconciles once per tick up to and
including the first tick whose reconciliation raises, and never again
after that: over any script of tick outcomes the number of
reconciliations performed is the length of the error-free prefix plus
one for the failing tick (capped by the script length). -/
theorem claim_C8_thread_dies (script : List Bool) :
    periodic_reconcile_runs script =
      min script.length ((script.takeWhile id).length + 1) :=
  periodic_reconcile_runs_eq script

/-- C9 counterexample: the claim says the precondition check decides
isolation EXACTLY by prefix comparison — match ⇒ refuse to run.  But
with the legacy `sys.real_prefix` attribute present (an old-style
virtualenv), the base prefix equals the effective prefix and the monitor
still proceeds to start watching. -/
theorem claim_C9_counterexample :
    (SysEnv.mk true (some "/usr") "/usr").basePrefixAttr =
        some (SysEnv.mk true (some "/usr") "/usr").prefixPath ∧
      monitor_virtualenv_start (SysEnv.mk true (some "/usr") "/usr") =
        MonitorStart.watching := by
  decide

/-- C9 amended: the monitor proceeds exactly when the legacy
`real_prefix` attribute is present OR the base prefix exists and differs
from the effective prefix; otherwise (in particular whenever the
prefixes match and no legacy attribute is present) it refuses to run and
exits with status 1 before any work begins. -/
theorem claim_C9_precondition (s : SysEnv) :
    (monitor_virtualenv_start s = MonitorStart.watching ↔
      (s.realPrefixAttr = true ∨
        ∃ bp, s.basePrefixAttr = some bp ∧ bp ≠ s.prefixPath)) ∧
    (monitor_virtualenv_start s = MonitorStart.exitNonZero 1 ↔
      (s.realPrefixAttr = false ∧
        ∀ bp, s.basePrefixAttr = some bp → bp = s.prefixPath)) := by
  obtain ⟨r, b, p⟩ := s
  cases r
  · rcases b with _ | bp
    · simp [monitor_virtualenv_start, is_virtual_env, MonitorStart.watching,
        reduceCtorEq]
    · by_cases hbp : bp = p
      · subst hbp
        simp [monitor_virtualenv_start, is_virtual_env]
      · simp [monitor_virtualenv_start, is_virtual_env, hbp]
  · simp [monitor_virtualenv_start, is_virtual_env]

end PipWrapper
